import Mathlib

/-!
Shallow embedding of the memflow-vdm repository (a2x/memflow-vdm): the VDM
connector core, the physical-range enumerator, the mapping cache, the service
controller and the two driver adapters (RTCore64, WinIo).  Machine integers
are modelled as Nat with explicit reduction modulo 2^w at the points where the
Rust source performs a narrowing cast; fallible operations return Except; the
IOCTL round trips and the per-element read/write outcomes are modelled by
explicit oracle parameters, and the driver calls issued by an operation are
collected in an explicit event trace.
-/

/-! ## RTCore64 adapter (src/memflow-rtcore/src/lib.rs) -/

/-- Request struct sent to the RTCore64 map IOCTL (0x80002000):
`PhysicalMemoryMappingRequest { addr: u64, size: u32 }`. -/
structure RtMappingRequest where
  addr : Nat
  size : Nat
deriving DecidableEq

/-- Response struct of the RTCore64 map IOCTL: `PhysicalMemoryMappingResponse { addr: u64 }`,
filled in by the driver during DeviceIoControl. -/
structure RtMappingResponse where
  addr : Nat
deriving DecidableEq

/-- The mapping value returned by the RTCore64 adapter:
`MapPhysicalMemoryResponse { phys_addr: u64, size: usize, virt_addr: u64 }`. -/
structure RtMapping where
  phys_addr : Nat
  size : Nat
  virt_addr : Nat
deriving DecidableEq

/-- The request built by `RtCore64Driver::map_phys_mem`: `addr` is passed through,
`size` undergoes the narrowing cast `size as u32` (reduction mod 2^32). -/
def rtMappingRequest (addr size : Nat) : RtMappingRequest :=
  { addr := addr, size := size % 2 ^ 32 }

/-- `RtCore64Driver::map_phys_mem(addr, size)` after a successful DeviceIoControl.
`driverVirt` is the virtual address the driver wrote into the output struct
(`res.addr`).  The source constructs the returned mapping as
`MapPhysicalMemoryResponse { phys_addr: addr, size, virt_addr: req.addr }`:
the output struct `res` is never read. -/
def rtMapPhysMem (addr size driverVirt : Nat) : RtMapping :=
  let req := rtMappingRequest addr size
  let res : RtMappingResponse := { addr := driverVirt }
  { phys_addr := addr, size := size, virt_addr := req.addr }

/-! ## WinIo adapter (src/memflow-winio/src/lib.rs) -/

/-- The in-out struct shared by the WinIo map (0x80102040) and unmap (0x80102044)
IOCTLs: `MapUnmapPhysMemRequest { size: u64, phys_addr, section_handle, virt_addr,
obj_handle }`.  Handles are modelled as raw Nat values. -/
structure WinIoRequest where
  size : Nat
  phys_addr : Nat
  section_handle : Nat
  virt_addr : Nat
  obj_handle : Nat
deriving DecidableEq

/-- `MapUnmapPhysMemRequest::default()`: all fields zero. -/
def winIoDefaultRequest : WinIoRequest :=
  { size := 0, phys_addr := 0, section_handle := 0, virt_addr := 0, obj_handle := 0 }

/-- The request `WinIo::map_phys_mem` sends: `size` (cast `size as u64`) and
`phys_addr` filled by the caller, the remaining fields defaulted. -/
def winIoMapRequestInit (addr size : Nat) : WinIoRequest :=
  { winIoDefaultRequest with size := size % 2 ^ 64, phys_addr := addr }

/-- The mapping value `WinIo::map_phys_mem(addr, size)` returns on success: the
in-out request struct after the driver filled `section_handle`, `virt_addr` and
`obj_handle` during DeviceIoControl. -/
def winIoMapPhysMem (addr size sh va oh : Nat) : WinIoRequest :=
  { winIoMapRequestInit addr size with
    section_handle := sh, virt_addr := va, obj_handle := oh }

/-- The request `WinIo::unmap_phys_mem` sends to the unmap IOCTL: it copies
`section_handle`, `virt_addr` and `obj_handle` out of the mapping received from
map and defaults the remaining fields (`..Default::default()`). -/
def winIoUnmapRequest (m : WinIoRequest) : WinIoRequest :=
  { winIoDefaultRequest with
    section_handle := m.section_handle, virt_addr := m.virt_addr, obj_handle := m.obj_handle }

/-! ## Physical-memory range enumerator
(src/memflow-vdm/src/sys/phys_ranges.rs and src/memflow-vdm/src/phys_ranges.rs,
identical size logic) -/

/-- One `CM_PARTIAL_RESOURCE_DESCRIPTOR` as read from the registry blob:
`{ type: u8, share_disposition: u8, flags: u16, data: { start: u64, size: u64 } }`.
The type field is kept as its numeric code (`Memory = 3`, `MemoryLarge = 7`). -/
structure CmPartialResourceDescriptor where
  rtype : Nat
  share_disposition : Nat
  flags : Nat
  start : Nat
  size : Nat
deriving DecidableEq

/-- Numeric code of `CmResourceType::Memory`. -/
def CmResourceTypeMemory : Nat := 3

/-- Numeric code of `CmResourceType::MemoryLarge`. -/
def CmResourceTypeMemoryLarge : Nat := 7

/-- Flag bit `CmResourceMemory::Large40`. -/
def CmLarge40 : Nat := 0x200

/-- Flag bit `CmResourceMemory::Large48`. -/
def CmLarge48 : Nat := 0x400

/-- Flag bit `CmResourceMemory::Large64`. -/
def CmLarge64 : Nat := 0x800

/-- A contiguous physical memory range as produced by `get_phys_mem_ranges`. -/
structure PhysicalMemoryRange where
  addr : Nat
  size : Nat
deriving DecidableEq

/-- The `MemoryLarge` size adjustment in `get_phys_mem_ranges`: an if / else-if
chain over the flag bits 0x200, 0x400, 0x800, shifting the 64-bit size left by
8, 16 or 32 (arithmetic reduced mod 2^64, the width of the Rust value). -/
def adjustLargeSize (size flags : Nat) : Nat :=
  if flags &&& CmLarge40 ≠ 0 then (size <<< 8) % 2 ^ 64
  else if flags &&& CmLarge48 ≠ 0 then (size <<< 16) % 2 ^ 64
  else if flags &&& CmLarge64 ≠ 0 then (size <<< 32) % 2 ^ 64
  else size

/-- The inner descriptor loop of `get_phys_mem_ranges` over one partial resource
list: `Memory` records keep their raw size, `MemoryLarge` records get the flag
driven shift, any other record type breaks out of the loop. -/
def enumPartialDescriptors : List CmPartialResourceDescriptor → List PhysicalMemoryRange
  | [] => []
  | d :: rest =>
    if d.rtype = CmResourceTypeMemory then
      { addr := d.start, size := d.size } :: enumPartialDescriptors rest
    else if d.rtype = CmResourceTypeMemoryLarge then
      { addr := d.start, size := adjustLargeSize d.size d.flags } :: enumPartialDescriptors rest
    else []

/-- The outer loop of `get_phys_mem_ranges`: ranges of all full descriptors
concatenated in enumeration order. -/
def getPhysMemRanges (fullDescriptors : List (List CmPartialResourceDescriptor)) :
    List PhysicalMemoryRange :=
  (fullDescriptors.map enumPartialDescriptors).flatten

/-! ## PhysMem read/write path (src/memflow-vdm/src/lib.rs)

The default methods of the `PhysMem` trait call the driver adapter through
`map_phys_mem` / `unmap_phys_mem`.  The IOCTL outcomes are modelled by a
`DriverModel` oracle and every driver call issued is recorded in a trace. -/

/-- A driver call issued on the PhysMem path: a map request for `(addr, len)` or
the unmap of the mapping previously obtained for `(addr, len)`. -/
inductive DriverEvent
  | map (addr len : Nat)
  | unmap (addr len : Nat)
deriving DecidableEq

/-- Oracle describing which driver map / unmap IOCTLs succeed. -/
structure DriverModel where
  mapOk : Nat → Nat → Bool
  unmapOk : Nat → Nat → Bool

/-- A driver whose map and unmap IOCTLs always succeed. -/
def allOkDriver : DriverModel :=
  { mapOk := fun _ _ => true, unmapOk := fun _ _ => true }

/-- The driver oracle reports success on every call. -/
def DriverModel.allOk (D : DriverModel) : Prop :=
  ∀ a l, D.mapOk a l = true ∧ D.unmapOk a l = true

/-- `PhysMem::phys_read_raw_into(addr, buf)`: maps `(addr, buf.len())`, copies the
bytes out of the mapped virtual window, then unmaps; the unmap result is the
result of the call.  A failed map aborts before any unmap; the byte copy itself
involves no driver call. -/
def physReadRawInto (D : DriverModel) (addr len : Nat) :
    Except Unit Unit × List DriverEvent :=
  if D.mapOk addr len then
    if D.unmapOk addr len then
      (Except.ok (), [DriverEvent.map addr len, DriverEvent.unmap addr len])
    else
      (Except.error (), [DriverEvent.map addr len, DriverEvent.unmap addr len])
  else
    (Except.error (), [DriverEvent.map addr len])

/-- `PhysMem::phys_write_raw(addr, buf)`: same map / copy / unmap shape as the
raw read. -/
def physWriteRaw (D : DriverModel) (addr len : Nat) :
    Except Unit Unit × List DriverEvent :=
  if D.mapOk addr len then
    if D.unmapOk addr len then
      (Except.ok (), [DriverEvent.map addr len, DriverEvent.unmap addr len])
    else
      (Except.error (), [DriverEvent.map addr len, DriverEvent.unmap addr len])
  else
    (Except.error (), [DriverEvent.map addr len])

/-- Chunk lengths produced by `buf.chunks_mut(cs)` over a buffer of length `n`:
runs of `cs` with a shorter final chunk when `cs` does not divide `n`.
Rust panics on `cs = 0`; the model returns `[]` there and is only used with
`cs > 0`. -/
def chunkLens (cs n : Nat) : List Nat :=
  if cs = 0 then []
  else if n = 0 then []
  else if n ≤ cs then [n]
  else cs :: chunkLens cs (n - cs)
termination_by n
decreasing_by omega

/-- The chunk loop of `phys_read_raw_chunked_into`: for the chunk at enumeration
index `i` of length `l`, read into it from `addr + i * l` (the source computes
the offset from the length of the current chunk), aborting at the first failed
read. -/
def physReadRawChunkedGo (D : DriverModel) (addr : Nat) :
    List Nat → Nat → Except Unit Unit × List DriverEvent
  | [], _ => (Except.ok (), [])
  | l :: rest, i =>
    match physReadRawInto D (addr + i * l) l with
    | (Except.error _, tr) => (Except.error (), tr)
    | (Except.ok _, tr) =>
      match physReadRawChunkedGo D addr rest (i + 1) with
      | (r, tr2) => (r, tr ++ tr2)

/-- `PhysMem::phys_read_raw_chunked_into(addr, buf, chunk_size)`: rejects buffers
smaller than one chunk, otherwise reads chunk by chunk. -/
def physReadRawChunkedInto (D : DriverModel) (addr n cs : Nat) :
    Except Unit Unit × List DriverEvent :=
  if n < cs then (Except.error (), [])
  else physReadRawChunkedGo D addr (chunkLens cs n) 0

/-- The 4 KiB page size constant of src/memflow-vdm/src/lib.rs. -/
def PAGE_SIZE : Nat := 4096

/-- The per-element read dispatch of `VdmConnector::phys_read_raw_iter`: reads of
at least one page go through the chunked read with page-sized chunks, smaller
reads through the plain raw read. -/
def connReadElem (D : DriverModel) (addr len : Nat) :
    Except Unit Unit × List DriverEvent :=
  if PAGE_SIZE ≤ len then physReadRawChunkedInto D addr len PAGE_SIZE
  else physReadRawInto D addr len

/-- The map requests contained in a driver call trace, in order. -/
def mapEvents : List DriverEvent → List (Nat × Nat)
  | [] => []
  | DriverEvent.map a l :: rest => (a, l) :: mapEvents rest
  | DriverEvent.unmap _ _ :: rest => mapEvents rest

/-- One element of a batched memory operation: target physical address and the
length of the data buffer. -/
structure MemOpElem where
  addr : Nat
  len : Nat
deriving DecidableEq

/-- A callback-sink invocation: the element was delivered to the success sink
(`out`) or to the failure sink (`out_fail`). -/
inductive SinkEvent
  | success (e : MemOpElem)
  | failure (e : MemOpElem)
deriving DecidableEq

/-- Whether an Except value is `ok`. -/
def isOkB : Except Unit Unit → Bool
  | Except.ok _ => true
  | Except.error _ => false

/-- Success of the underlying read for one element of `phys_read_raw_iter`. -/
def readElemOk (D : DriverModel) (e : MemOpElem) : Bool :=
  isOkB (connReadElem D e.addr e.len).1

/-- Success of the underlying write for one element of `phys_write_raw_iter`. -/
def writeElemOk (D : DriverModel) (e : MemOpElem) : Bool :=
  isOkB (physWriteRaw D e.addr e.len).1

/-- The `inp.for_each` loop shared by both batched entry points: every element is
delivered to the success sink when `p` holds for it and to the failure sink
otherwise, in input order. -/
def forEachRoute (p : MemOpElem → Bool) : List MemOpElem → List SinkEvent
  | [] => []
  | e :: rest =>
    (if p e then SinkEvent.success e else SinkEvent.failure e) :: forEachRoute p rest

/-- `VdmConnector::phys_read_raw_iter`: routes each element by the outcome of its
dispatched read and returns `Ok(())` unconditionally. -/
def physReadRawIter (D : DriverModel) (inp : List MemOpElem) :
    Except Unit Unit × List SinkEvent :=
  (Except.ok (), forEachRoute (readElemOk D) inp)

/-- `VdmConnector::phys_write_raw_iter`: routes each element by the outcome of
`phys_write_raw` and returns `Ok(())` unconditionally. -/
def physWriteRawIter (D : DriverModel) (inp : List MemOpElem) :
    Except Unit Unit × List SinkEvent :=
  (Except.ok (), forEachRoute (writeElemOk D) inp)

/-- Elements delivered to the success sink, in delivery order. -/
def successElems : List SinkEvent → List MemOpElem
  | [] => []
  | SinkEvent.success e :: r => e :: successElems r
  | SinkEvent.failure _ :: r => successElems r

/-- Elements delivered to the failure sink, in delivery order. -/
def failureElems : List SinkEvent → List MemOpElem
  | [] => []
  | SinkEvent.success _ :: r => failureElems r
  | SinkEvent.failure e :: r => e :: failureElems r

/-! ## Mapping cache
`PhysicalMemoryMapper` (src/memflow-vdm/src/sys/phys_mapper.rs) and
`PhysicalMemoryRegionMapper` (src/src/lib.rs).  Both collect the per-range map
results with `collect::<Result<Vec<_>>>()?`, which stops at the first failure;
all calls crossing the mapper / driver boundary are recorded in a trace. -/

/-- A mapping response held by the mapper (`phys_addr`, `size`, `virt_addr`
accessors of the driver response). -/
structure MapperResponse where
  phys_addr : Nat
  size : Nat
  virt_addr : Nat
deriving DecidableEq

/-- Driver oracle for the mapper: which map requests succeed and the virtual
address returned for a successful one. -/
structure MapperDriver where
  mapOk : Nat → Nat → Bool
  virtOf : Nat → Nat → Nat

/-- A call crossing the mapper / driver boundary: a map attempt for a range
(with its outcome) or an unmap of a held mapping (with its outcome). -/
inductive MapperEvent
  | mapCall (addr size : Nat) (ok : Bool)
  | unmapCall (m : MapperResponse) (ok : Bool)
deriving DecidableEq

/-- `ranges.iter().map(|r| mem.map(r)).collect::<Result<Vec<_>>>()`: maps the
ranges in order and stops at the first failure, whose error carries the
offending physical address (`Error::MapPhysicalMemory { addr }`).  The trace
records every map call issued; no unmap is ever issued here. -/
def collectMappings (D : MapperDriver) :
    List PhysicalMemoryRange → List MapperEvent × Except Nat (List MapperResponse)
  | [] => ([], Except.ok [])
  | r :: rest =>
    if D.mapOk r.addr r.size then
      match collectMappings D rest with
      | (tr, Except.ok ms) =>
        (MapperEvent.mapCall r.addr r.size true :: tr,
         Except.ok ({ phys_addr := r.addr, size := r.size,
                      virt_addr := D.virtOf r.addr r.size } :: ms))
      | (tr, Except.error e) =>
        (MapperEvent.mapCall r.addr r.size true :: tr, Except.error e)
    else ([MapperEvent.mapCall r.addr r.size false], Except.error r.addr)

/-- The state of a `PhysicalMemoryMapper`: its `mappings` vector. -/
structure MapperState where
  mappings : List MapperResponse
deriving DecidableEq

/-- Result of one `map_ranges` call: new state, returned result, and the calls
issued while it ran. -/
structure MapRangesOut where
  state : MapperState
  result : Except Nat Unit
  trace : List MapperEvent

/-- `PhysicalMemoryMapper::map_ranges`: `self.mappings = ranges.iter().map(..)\
.collect::<Result<Vec<_>>>()?`.  On success the collected vector replaces
`self.mappings` wholesale (the previous vector is dropped without any unmap);
on failure the `?` returns the error before the assignment, so `self.mappings`
is unchanged and the mappings collected so far are dropped without any unmap. -/
def mapRanges (D : MapperDriver) (s : MapperState) (ranges : List PhysicalMemoryRange) :
    MapRangesOut :=
  match collectMappings D ranges with
  | (tr, Except.ok ms) =>
    { state := { mappings := ms }, result := Except.ok (), trace := tr }
  | (tr, Except.error e) => { state := s, result := Except.error e, trace := tr }

/-- `PhysicalMemoryRegionMapper::new` (src/src/lib.rs): the same collect over the
enumerated ranges; on failure no mapper value is constructed, so its Drop (the
only place unmap is called) never runs for the collected mappings. -/
def regionMapperNew (D : MapperDriver) (ranges : List PhysicalMemoryRange) :
    List MapperEvent × Except Nat MapperState :=
  match collectMappings D ranges with
  | (tr, Except.ok ms) => (tr, Except.ok { mappings := ms })
  | (tr, Except.error e) => (tr, Except.error e)

/-- The `Drop` impl of the mapper: iterates the current mappings in order, calls
`unmap` on each and discards the individual result (`let _ = ...`); `uo` gives
each unmap outcome, which cannot alter the iteration. -/
def dropMapper (uo : MapperResponse → Bool) (s : MapperState) : List MapperEvent :=
  s.mappings.map (fun m => MapperEvent.unmapCall m (uo m))

/-- The mappings passed to unmap in a trace, in call order. -/
def unmapCalls : List MapperEvent → List MapperResponse
  | [] => []
  | MapperEvent.unmapCall m _ :: r => m :: unmapCalls r
  | MapperEvent.mapCall _ _ _ :: r => unmapCalls r

/-- The successfully mapped (addr, size) pairs in a trace, in call order. -/
def successfulMapCalls : List MapperEvent → List (Nat × Nat)
  | [] => []
  | MapperEvent.mapCall a s true :: r => (a, s) :: successfulMapCalls r
  | MapperEvent.mapCall _ _ false :: r => successfulMapCalls r
  | MapperEvent.unmapCall _ _ :: r => successfulMapCalls r

/-- The full boundary trace of a mapper lifecycle: a fresh mapper, two
successive `map_ranges` calls, then Drop. -/
def mapperLifecycleTrace (D : MapperDriver) (uo : MapperResponse → Bool)
    (r1 r2 : List PhysicalMemoryRange) : List MapperEvent :=
  let o1 := mapRanges D { mappings := [] } r1
  let o2 := mapRanges D o1.state r2
  o1.trace ++ o2.trace ++ dropMapper uo o2.state

/-- A concrete mapper driver that succeeds exactly on physical address 0; used
to exhibit a map failure after one success. -/
def failSecondDriver : MapperDriver :=
  { mapOk := fun a _ => decide (a = 0), virtOf := fun _ _ => 0x10000 }

/-! ## Service controller (src/memflow-vdm/src/sys/service.rs) and driver
loader (src/src/driver.rs) -/

/-- The service states of `ServiceState` in src/memflow-vdm/src/sys/service.rs. -/
inductive SvcState
  | Unknown
  | Stopped
  | StartPending
  | StopPending
  | Running
  | ContinuePending
  | PausePending
  | Paused
deriving DecidableEq

/-- `Service::start()`: queries the current state; returns Ok without issuing a
start control request when the service is already Running, otherwise issues
`StartServiceA` and returns its result.  `queried` is the `query_state` outcome
and `startResult` the `StartServiceA` outcome; the Bool records whether a start
control request was issued. -/
def serviceStart (queried : Except Unit SvcState) (startResult : Except Unit Unit) :
    Bool × Except Unit Unit :=
  match queried with
  | Except.error _ => (false, Except.error ())
  | Except.ok st =>
    if st = SvcState.Running then (false, Except.ok ())
    else (true, startResult)

/-- The Win32 error code ERROR_SERVICE_ALREADY_RUNNING. -/
def ErrorServiceAlreadyRunning : Nat := 1056

/-- The `StartServiceA` handling in `load_driver` (src/src/driver.rs): a start
failure whose code equals ERROR_SERVICE_ALREADY_RUNNING is treated as success;
any other failure is propagated after service cleanup.  `startResult` is `none`
on success and `some code` on failure. -/
def loadDriverStartStep (startResult : Option Nat) : Except Nat Unit :=
  match startResult with
  | none => Except.ok ()
  | some e =>
    if e = ErrorServiceAlreadyRunning then Except.ok () else Except.error e

/-! # Theorems -/

/-- C2: `RtCore64Driver::map_phys_mem` is specified to return the driver-provided
virtual address from the IOCTL output struct, but the code returns `req.addr` (the
physical address of the request) and never reads the output struct.  Evaluated at
the failing input addr = 0x1000, size = 0x1000 with the driver delivering virtual
address 0x7FFE0000: the returned mapping reports virt_addr 0x1000, not 0x7FFE0000. -/
theorem rtcore_virt_addr_is_request_addr_not_driver_output :
    (rtMapPhysMem 0x1000 0x1000 0x7FFE0000).virt_addr = 0x1000 ∧
    (rtMapPhysMem 0x1000 0x1000 0x7FFE0000).virt_addr ≠ 0x7FFE0000 := by
  decide

/-- C7: for every mapping returned by `WinIo::map_phys_mem` and passed to
`WinIo::unmap_phys_mem`, the unmap IOCTL request echoes exactly the
`section_handle`, `virt_addr` and `obj_handle` received from the map IOCTL and
carries `size = 0` and `phys_addr = 0`. -/
theorem winio_unmap_echoes_map_handles (addr size sh va oh : Nat) :
    winIoUnmapRequest (winIoMapPhysMem addr size sh va oh) =
      { size := 0, phys_addr := 0, section_handle := sh, virt_addr := va, obj_handle := oh } := by
  rfl

/-- C8: in `RtCore64Driver::map_phys_mem(addr, size)` the size field sent to the
driver is `size as u32` (reduction mod 2^32) while the returned mapping reports
the full `size`; for every size at least 2^32 the two differ. -/
theorem rtcore_size_truncated_in_request (addr size driverVirt : Nat) :
    (rtMappingRequest addr size).size = size % 2 ^ 32 ∧
    (rtMapPhysMem addr size driverVirt).size = size ∧
    (2 ^ 32 ≤ size → (rtMappingRequest addr size).size ≠ (rtMapPhysMem addr size driverVirt).size) := by
  refine ⟨rfl, rfl, fun h => ?_⟩
  have hlt : size % 2 ^ 32 < 2 ^ 32 := Nat.mod_lt _ (by norm_num)
  simp only [rtMappingRequest, rtMapPhysMem]
  omega

/-- Witness for C8: at size = 2^32 the request field is 0 while the mapping
reports 2^32. -/
theorem rtcore_size_truncated_in_request_witness :
    (rtMappingRequest 0 (2 ^ 32)).size ≠ (rtMapPhysMem 0 (2 ^ 32) 0).size :=
  (rtcore_size_truncated_in_request 0 (2 ^ 32) 0).2.2 (Nat.le_refl _)

/-- C4: a `MemoryLarge` (type 7) record is scaled by the flag driven if / else-if
chain — shift by 8 when bit 0x200 is set, else by 16 when 0x400 is set, else by
32 when 0x800 is set — while `Memory` (type 3) records keep their raw size; in
particular raw size 1 with flag 0x800 yields 1 <<< 32 and raw size 2 with flag
0x400 yields 2 <<< 16, as ranges produced by the enumerator. -/
theorem memory_large_size_scaling :
    (∀ size flags : Nat, flags &&& 0x200 ≠ 0 →
      adjustLargeSize size flags = (size <<< 8) % 2 ^ 64) ∧
    (∀ size flags : Nat, flags &&& 0x200 = 0 → flags &&& 0x400 ≠ 0 →
      adjustLargeSize size flags = (size <<< 16) % 2 ^ 64) ∧
    (∀ size flags : Nat, flags &&& 0x200 = 0 → flags &&& 0x400 = 0 → flags &&& 0x800 ≠ 0 →
      adjustLargeSize size flags = (size <<< 32) % 2 ^ 64) ∧
    (∀ (d : CmPartialResourceDescriptor) rest, d.rtype = 3 →
      enumPartialDescriptors (d :: rest) =
        { addr := d.start, size := d.size } :: enumPartialDescriptors rest) ∧
    (∀ (d : CmPartialResourceDescriptor) rest, d.rtype = 7 →
      enumPartialDescriptors (d :: rest) =
        { addr := d.start, size := adjustLargeSize d.size d.flags } ::
          enumPartialDescriptors rest) ∧
    getPhysMemRanges [[⟨7, 0, 0x800, 0, 1⟩]] = [{ addr := 0, size := 1 <<< 32 }] ∧
    getPhysMemRanges [[⟨7, 0, 0x400, 0, 2⟩]] = [{ addr := 0, size := 2 <<< 16 }] := by
  refine ⟨?_, ?_, ?_, ?_, ?_, by decide, by decide⟩
  · intro size flags h
    simp [adjustLargeSize, CmLarge40, h]
  · intro size flags h1 h2
    simp [adjustLargeSize, CmLarge40, CmLarge48, h1, h2]
  · intro size flags h1 h2 h3
    simp [adjustLargeSize, CmLarge40, CmLarge48, CmLarge64, h1, h2, h3]
  · intro d rest h
    simp [enumPartialDescriptors, CmResourceTypeMemory, h]
  · intro d rest h
    simp [enumPartialDescriptors, CmResourceTypeMemory, CmResourceTypeMemoryLarge, h]

/-- Witness for C4: the hypothesised conjuncts applied at concrete records. -/
theorem memory_large_size_scaling_witness :
    adjustLargeSize 1 0x200 = (1 <<< 8) % 2 ^ 64 ∧
    adjustLargeSize 2 0x400 = (2 <<< 16) % 2 ^ 64 ∧
    adjustLargeSize 1 0x800 = (1 <<< 32) % 2 ^ 64 ∧
    enumPartialDescriptors [⟨3, 0, 0, 0x1000, 0x2000⟩] =
      [{ addr := 0x1000, size := 0x2000 }] ∧
    enumPartialDescriptors [⟨7, 0, 0x400, 0, 2⟩] =
      [{ addr := 0, size := adjustLargeSize 2 0x400 }] :=
  ⟨memory_large_size_scaling.1 1 0x200 (by decide),
   memory_large_size_scaling.2.1 2 0x400 (by decide) (by decide),
   memory_large_size_scaling.2.2.1 1 0x800 (by decide) (by decide) (by decide),
   memory_large_size_scaling.2.2.2.1 _ [] (by decide),
   memory_large_size_scaling.2.2.2.2.1 _ [] (by decide)⟩

/-- Helper: mapEvents distributes over trace concatenation. -/
theorem mapEvents_append (l1 l2 : List DriverEvent) :
    mapEvents (l1 ++ l2) = mapEvents l1 ++ mapEvents l2 := by
  induction l1 with
  | nil => rfl
  | cons e r ih => cases e <;> simp [mapEvents, ih]

/-- Helper: at an exact positive multiple of the chunk size, the chunk lengths
are uniform. -/
theorem chunkLens_mul (cs : Nat) (hcs : 0 < cs) :
    ∀ k, chunkLens cs (cs * k) = List.replicate k cs := by
  intro k
  induction k with
  | zero => simp [chunkLens]
  | succ k ih =>
    have h0 : cs ≠ 0 := hcs.ne'
    rcases Nat.eq_zero_or_pos k with hk | hk
    · subst hk
      rw [chunkLens]
      simp [h0, hcs.ne']
    · have hsucc : cs * (k + 1) = cs * k + cs := by ring
      have hge : ¬ cs * (k + 1) ≤ cs := by
        have : cs * 1 ≤ cs * k := Nat.mul_le_mul_left cs hk
        omega
      have hn0 : cs * (k + 1) ≠ 0 := by positivity
      rw [chunkLens]
      simp only [h0, hn0, hge, if_false]
      have hsub : cs * (k + 1) - cs = cs * k := by omega
      rw [hsub, ih, List.replicate_succ]

/-- Helper: the chunk loop under an always-succeeding driver returns ok and
issues one read per chunk at stride cs, starting at enumeration index i. -/
theorem chunkedGo_allOk (D : DriverModel) (hD : D.allOk) (addr cs : Nat) :
    ∀ k i, (physReadRawChunkedGo D addr (List.replicate k cs) i).1 = Except.ok () ∧
      mapEvents (physReadRawChunkedGo D addr (List.replicate k cs) i).2 =
        (List.range k).map (fun j => (addr + (i + j) * cs, cs)) := by
  intro k
  induction k with
  | zero => intro i; simp [physReadRawChunkedGo, mapEvents]
  | succ k ih =>
    intro i
    have hm := (hD (addr + i * cs) cs).1
    have hu := (hD (addr + i * cs) cs).2
    have hread : physReadRawInto D (addr + i * cs) cs =
        (Except.ok (), [DriverEvent.map (addr + i * cs) cs,
                        DriverEvent.unmap (addr + i * cs) cs]) := by
      simp [physReadRawInto, hm, hu]
    have hrec := ih (i + 1)
    simp only [List.replicate_succ, physReadRawChunkedGo, hread]
    constructor
    · rcases hgo : physReadRawChunkedGo D addr (List.replicate k cs) (i + 1) with ⟨r, tr⟩
      rw [hgo] at hrec
      simpa using hrec.1
    · rcases hgo : physReadRawChunkedGo D addr (List.replicate k cs) (i + 1) with ⟨r, tr⟩
      rw [hgo] at hrec
      simp only [mapEvents_append]
      rw [List.range_succ_eq_map, List.map_cons, List.map_map]
      have htr : mapEvents tr = (List.range k).map (fun j => (addr + (i + 1 + j) * cs, cs)) := by
        simpa using hrec.2
      simp only [mapEvents, htr]
      refine congrArg (fun l => (addr + i * cs, cs) :: l) ?_
      refine List.map_congr_left ?_
      intro j hj
      simp only [Function.comp]
      rw [show i + (j + 1) = i + 1 + j by omega]

/-- C3 counterexample: the claim says no read through the built connector ever
invokes the driver map or unmap; but a one-element 8-byte read dispatched by
`VdmConnector::phys_read_raw_iter` (which calls `PhysMem::phys_read_raw_into`)
issues a map and an unmap driver call. -/
theorem connector_read_issues_driver_calls_counterexample :
    (connReadElem allOkDriver 0 8).2 =
      [DriverEvent.map 0 8, DriverEvent.unmap 0 8] ∧
    (connReadElem allOkDriver 0 8).2 ≠ [] := by
  decide

/-- C3 amended: after construction, reads and writes dispatched through the
VdmConnector do enter the driver: every sub-page read and every write first
issues a map call for its address and length, followed by an unmap call when
the map succeeded; the trace of driver calls is never empty. -/
theorem connector_hot_path_invokes_map_unmap (D : DriverModel) (addr len : Nat)
    (h : len < PAGE_SIZE) :
    (connReadElem D addr len).2 = DriverEvent.map addr len ::
      (if D.mapOk addr len then [DriverEvent.unmap addr len] else []) ∧
    (physWriteRaw D addr len).2 = DriverEvent.map addr len ::
      (if D.mapOk addr len then [DriverEvent.unmap addr len] else []) ∧
    (connReadElem D addr len).2 ≠ [] ∧
    (physWriteRaw D addr len).2 ≠ [] := by
  have hle : ¬ PAGE_SIZE ≤ len := Nat.not_le.mpr h
  have hread : connReadElem D addr len = physReadRawInto D addr len := by
    simp [connReadElem, hle]
  rw [hread]
  rcases hm : D.mapOk addr len <;> rcases hu : D.unmapOk addr len <;>
    simp [physReadRawInto, physWriteRaw, hm, hu]

/-- Witness for C3 amended: a concrete 8-byte read and write both issue a map
and an unmap call. -/
theorem connector_hot_path_invokes_map_unmap_witness :
    (connReadElem allOkDriver 0 8).2 = DriverEvent.map 0 8 ::
      (if allOkDriver.mapOk 0 8 then [DriverEvent.unmap 0 8] else []) ∧
    (physWriteRaw allOkDriver 0 8).2 ≠ [] :=
  ⟨(connector_hot_path_invokes_map_unmap allOkDriver 0 8 (by decide)).1,
   (connector_hot_path_invokes_map_unmap allOkDriver 0 8 (by decide)).2.2.2⟩

/-- C9: `phys_read_raw_chunked_into(addr, buf, chunk_size)` rejects a buffer
smaller than one chunk without issuing any read; and when the buffer length is
an exact multiple of a positive chunk size and the underlying reads succeed, it
issues exactly buf.len / chunk_size reads, the i-th targeting
addr + i * chunk_size with length chunk_size, which together cover
[addr, addr + buf.len) with no gap and no overlap. -/
theorem phys_read_raw_chunked_into_spec (D : DriverModel) (addr n cs : Nat) :
    (n < cs → physReadRawChunkedInto D addr n cs = (Except.error (), [])) ∧
    (0 < cs → cs ∣ n → D.allOk →
      mapEvents (physReadRawChunkedInto D addr n cs).2 =
        (List.range (n / cs)).map (fun i => (addr + i * cs, cs)) ∧
      (∀ x, (∃ i, i < n / cs ∧ addr + i * cs ≤ x ∧ x < addr + i * cs + cs) ↔
        (addr ≤ x ∧ x < addr + n)) ∧
      (∀ i j, i < j → j < n / cs → addr + i * cs + cs ≤ addr + j * cs)) := by
  constructor
  · intro hlt
    simp [physReadRawChunkedInto, hlt]
  · intro hcs hdvd hD
    obtain ⟨k, rfl⟩ := hdvd
    have hdiv : cs * k / cs = k := Nat.mul_div_cancel_left k hcs
    have hmain : mapEvents (physReadRawChunkedInto D addr (cs * k) cs).2 =
        (List.range k).map (fun i => (addr + i * cs, cs)) := by
      rcases Nat.eq_zero_or_pos k with hk | hk
      · subst hk
        simp [physReadRawChunkedInto, hcs, mapEvents]
      · have hge : ¬ cs * k < cs := by
          have : cs * 1 ≤ cs * k := Nat.mul_le_mul_left cs hk
          omega
        rw [physReadRawChunkedInto, if_neg hge, chunkLens_mul cs hcs k]
        have := (chunkedGo_allOk D hD addr cs k 0).2
        simpa using this
    refine ⟨by rw [hdiv]; exact hmain, ?_, ?_⟩
    · intro x
      rw [hdiv]
      constructor
      · rintro ⟨i, hik, h1, h2⟩
        have hmul : (i + 1) * cs ≤ k * cs := Nat.mul_le_mul_right cs hik
        have hexp : (i + 1) * cs = i * cs + cs := Nat.succ_mul i cs
        have hkc : k * cs = cs * k := Nat.mul_comm k cs
        refine ⟨le_trans (Nat.le_add_right addr (i * cs)) h1, ?_⟩
        calc x < addr + i * cs + cs := h2
          _ = addr + (i + 1) * cs := by omega
          _ ≤ addr + k * cs := by omega
          _ = addr + cs * k := by rw [hkc]
      · rintro ⟨h1, h2⟩
        obtain ⟨m, rfl⟩ : ∃ m, x = addr + m := ⟨x - addr, by omega⟩
        have hmlt : m < cs * k := by omega
        refine ⟨m / cs, ?_, ?_, ?_⟩
        · exact (Nat.div_lt_iff_lt_mul hcs).mpr (by rw [Nat.mul_comm]; exact hmlt)
        · have := Nat.div_mul_le_self m cs
          omega
        · have hmod := Nat.div_add_mod m cs
          have hrlt : m % cs < cs := Nat.mod_lt m hcs
          have : m < m / cs * cs + cs := by
            have hcm : cs * (m / cs) = m / cs * cs := Nat.mul_comm cs (m / cs)
            omega
          omega
    · intro i j hij hjk
      have hmul : (i + 1) * cs ≤ j * cs := Nat.mul_le_mul_right cs hij
      have hexp : (i + 1) * cs = i * cs + cs := Nat.succ_mul i cs
      omega

/-- Witness for C9: an 8192-byte buffer read in 4096-byte chunks from 0x1000
issues exactly the two page reads, and a 100-byte buffer with a 4096-byte chunk
size is rejected with no read issued. -/
theorem phys_read_raw_chunked_into_spec_witness :
    mapEvents (physReadRawChunkedInto allOkDriver 0x1000 8192 4096).2 =
      (List.range (8192 / 4096)).map (fun i => (0x1000 + i * 4096, 4096)) ∧
    physReadRawChunkedInto allOkDriver 0x1000 100 4096 = (Except.error (), []) :=
  ⟨((phys_read_raw_chunked_into_spec allOkDriver 0x1000 8192 4096).2 (by decide)
      (by decide) (fun a l => ⟨rfl, rfl⟩)).1,
   (phys_read_raw_chunked_into_spec allOkDriver 0x1000 100 4096).1 (by decide)⟩

/-- Helper: the success sink receives exactly the elements satisfying the
routing predicate, in input order. -/
theorem successElems_forEachRoute (p : MemOpElem → Bool) :
    ∀ l, successElems (forEachRoute p l) = l.filter p := by
  intro l
  induction l with
  | nil => rfl
  | cons e r ih =>
    by_cases hp : p e <;> simp [forEachRoute, successElems, hp, ih, List.filter_cons]

/-- Helper: the failure sink receives exactly the elements failing the routing
predicate, in input order. -/
theorem failureElems_forEachRoute (p : MemOpElem → Bool) :
    ∀ l, failureElems (forEachRoute p l) = l.filter (fun x => ! p x) := by
  intro l
  induction l with
  | nil => rfl
  | cons e r ih =>
    by_cases hp : p e <;> simp [forEachRoute, failureElems, successElems, hp, ih, List.filter_cons]

/-- Helper: splitting a list by a predicate conserves its length. -/
theorem length_filter_add_length_filter_not (p : MemOpElem → Bool) :
    ∀ l : List MemOpElem, (l.filter p).length + (l.filter (fun x => ! p x)).length = l.length := by
  intro l
  induction l with
  | nil => rfl
  | cons e r ih =>
    by_cases hp : p e <;> simp [List.filter_cons, hp] <;> omega

/-- C5: both batched entry points return Ok unconditionally; every input element
is delivered to the success sink exactly when its underlying read / write
succeeded and to the failure sink exactly when it failed; the two sinks together
receive every element once, and no element reaches both sinks. -/
theorem phys_iter_routes_each_element (D : DriverModel) (inp : List MemOpElem) :
    (physReadRawIter D inp).1 = Except.ok () ∧
    (physWriteRawIter D inp).1 = Except.ok () ∧
    successElems (physReadRawIter D inp).2 = inp.filter (readElemOk D) ∧
    failureElems (physReadRawIter D inp).2 = inp.filter (fun e => ! readElemOk D e) ∧
    (successElems (physReadRawIter D inp).2).length +
      (failureElems (physReadRawIter D inp).2).length = inp.length ∧
    (∀ e, ¬(e ∈ successElems (physReadRawIter D inp).2 ∧
            e ∈ failureElems (physReadRawIter D inp).2)) ∧
    successElems (physWriteRawIter D inp).2 = inp.filter (writeElemOk D) ∧
    failureElems (physWriteRawIter D inp).2 = inp.filter (fun e => ! writeElemOk D e) ∧
    (successElems (physWriteRawIter D inp).2).length +
      (failureElems (physWriteRawIter D inp).2).length = inp.length ∧
    (∀ e, ¬(e ∈ successElems (physWriteRawIter D inp).2 ∧
            e ∈ failureElems (physWriteRawIter D inp).2)) := by
  have hr1 := successElems_forEachRoute (readElemOk D) inp
  have hr2 := failureElems_forEachRoute (readElemOk D) inp
  have hw1 := successElems_forEachRoute (writeElemOk D) inp
  have hw2 := failureElems_forEachRoute (writeElemOk D) inp
  simp only [physReadRawIter, physWriteRawIter] at *
  refine ⟨trivial, trivial, hr1, hr2, ?_, ?_, hw1, hw2, ?_, ?_⟩
  · rw [hr1, hr2]; exact length_filter_add_length_filter_not (readElemOk D) inp
  · intro e ⟨hs, hf⟩
    rw [hr1] at hs
    rw [hr2] at hf
    have h1 : readElemOk D e = true := (List.mem_filter.mp hs).2
    have h2 : (! readElemOk D e) = true := (List.mem_filter.mp hf).2
    simp [h1] at h2
  · rw [hw1, hw2]; exact length_filter_add_length_filter_not (writeElemOk D) inp
  · intro e ⟨hs, hf⟩
    rw [hw1] at hs
    rw [hw2] at hf
    have h1 : writeElemOk D e = true := (List.mem_filter.mp hs).2
    have h2 : (! writeElemOk D e) = true := (List.mem_filter.mp hf).2
    simp [h1] at h2

/-- Helper: the map-collection loop of the mappers never issues an unmap call. -/
theorem collectMappings_no_unmap (D : MapperDriver) :
    ∀ ranges, unmapCalls (collectMappings D ranges).1 = [] := by
  intro ranges
  induction ranges with
  | nil => rfl
  | cons r rest ih =>
    rcases hmo : D.mapOk r.addr r.size
    · simp [collectMappings, hmo, unmapCalls]
    · rcases hc : collectMappings D rest with ⟨tr, res⟩
      rw [hc] at ih
      cases res <;> simp_all [collectMappings, unmapCalls]

/-- Helper: unmapCalls distributes over trace concatenation. -/
theorem unmapCalls_append (l1 l2 : List MapperEvent) :
    unmapCalls (l1 ++ l2) = unmapCalls l1 ++ unmapCalls l2 := by
  induction l1 with
  | nil => rfl
  | cons e r ih => cases e <;> simp [unmapCalls, ih]

/-- Helper: the Drop loop passes each held mapping to unmap exactly once, in
order, whatever the individual unmap outcomes are. -/
theorem unmapCalls_dropMapper (uo : MapperResponse → Bool) :
    ∀ l : List MapperResponse,
      unmapCalls (l.map (fun m => MapperEvent.unmapCall m (uo m))) = l := by
  intro l
  induction l with
  | nil => rfl
  | cons m r ih => simp [unmapCalls, ih]

/-- Helper: the trace of a map_ranges call is the trace of its collect. -/
theorem mapRanges_trace (D : MapperDriver) (s : MapperState)
    (ranges : List PhysicalMemoryRange) :
    (mapRanges D s ranges).trace = (collectMappings D ranges).1 := by
  rcases hc : collectMappings D ranges with ⟨tr, res⟩
  cases res <;> simp [mapRanges, hc]

/-- C1 counterexample: with a driver that maps the range at 0 and fails at
4096, map_ranges on a fresh mapper returns the error for 4096 after one
successful map call, and the trace contains no unmap call at all — the one
successfully created mapping is not passed to unmap before the error returns. -/
theorem map_ranges_no_rollback_counterexample :
    (mapRanges failSecondDriver { mappings := [] }
      [{ addr := 0, size := 4096 }, { addr := 4096, size := 4096 }]).result =
        Except.error 4096 ∧
    successfulMapCalls (mapRanges failSecondDriver { mappings := [] }
      [{ addr := 0, size := 4096 }, { addr := 4096, size := 4096 }]).trace =
        [(0, 4096)] ∧
    unmapCalls (mapRanges failSecondDriver { mappings := [] }
      [{ addr := 0, size := 4096 }, { addr := 4096, size := 4096 }]).trace = [] :=
  ⟨rfl, rfl, rfl⟩

/-- C1 amended: when the driver map fails partway through, the error is
surfaced immediately and no unmap is issued at all — the successfully created
mappings are dropped unrecorded rather than rolled back; map_ranges leaves the
previous mappings list untouched, and RegionMapper::new likewise issues no
unmap before surfacing the error and constructs no mapper. -/
theorem map_ranges_failure_leaks_mappings (D : MapperDriver) (s : MapperState)
    (ranges : List PhysicalMemoryRange) :
    unmapCalls (mapRanges D s ranges).trace = [] ∧
    (∀ e, (mapRanges D s ranges).result = Except.error e →
      (mapRanges D s ranges).state = s) ∧
    unmapCalls (regionMapperNew D ranges).1 = [] ∧
    (∀ e, (regionMapperNew D ranges).2 = Except.error e →
      (collectMappings D ranges).2 = Except.error e) := by
  have hno := collectMappings_no_unmap D ranges
  rcases hc : collectMappings D ranges with ⟨tr, res⟩
  rw [hc] at hno
  cases res with
  | ok ms =>
    refine ⟨?_, ?_, ?_, ?_⟩
    · rw [mapRanges_trace D s ranges, hc]; exact hno
    · intro e he
      simp [mapRanges, hc] at he
    · simp [regionMapperNew, hc, hno]
    · intro e he
      simp [regionMapperNew, hc] at he
  | error e0 =>
    refine ⟨?_, ?_, ?_, ?_⟩
    · rw [mapRanges_trace D s ranges, hc]; exact hno
    · intro e _
      simp [mapRanges, hc]
    · simp [regionMapperNew, hc, hno]
    · intro e he
      simp only [regionMapperNew, hc] at he
      simpa using he

/-- Witness for C1 amended: on the concrete failing run the mapper keeps its
(empty) previous mappings list and issues no unmap. -/
theorem map_ranges_failure_leaks_mappings_witness :
    unmapCalls (mapRanges failSecondDriver { mappings := [] }
      [{ addr := 0, size := 4096 }, { addr := 4096, size := 4096 }]).trace = [] ∧
    (mapRanges failSecondDriver { mappings := [] }
      [{ addr := 0, size := 4096 }, { addr := 4096, size := 4096 }]).state =
      { mappings := [] } :=
  ⟨(map_ranges_failure_leaks_mappings failSecondDriver { mappings := [] }
      [{ addr := 0, size := 4096 }, { addr := 4096, size := 4096 }]).1,
   (map_ranges_failure_leaks_mappings failSecondDriver { mappings := [] }
      [{ addr := 0, size := 4096 }, { addr := 4096, size := 4096 }]).2.1 4096 rfl⟩

/-- C10: the Drop impl passes each element of the current mappings list to
unmap exactly once (in order, regardless of individual unmap outcomes); a
successful map_ranges replaces the mappings list wholesale while issuing no
unmap; and over a lifecycle of two successful map_ranges calls followed by
Drop, the mappings passed to unmap are exactly the second batch, so a mapping
of the first batch (not re-created in the second) is never passed to unmap. -/
theorem mapper_drop_and_replacement (D : MapperDriver) (uo : MapperResponse → Bool)
    (s : MapperState) (ranges r1 r2 : List PhysicalMemoryRange) :
    unmapCalls (dropMapper uo s) = s.mappings ∧
    (∀ tr ms, collectMappings D ranges = (tr, Except.ok ms) →
      (mapRanges D s ranges).state.mappings = ms ∧
      unmapCalls (mapRanges D s ranges).trace = []) ∧
    (∀ tr1 ms1 tr2 ms2,
      collectMappings D r1 = (tr1, Except.ok ms1) →
      collectMappings D r2 = (tr2, Except.ok ms2) →
      unmapCalls (mapperLifecycleTrace D uo r1 r2) = ms2 ∧
      (∀ m, m ∈ ms1 → m ∉ ms2 → m ∉ unmapCalls (mapperLifecycleTrace D uo r1 r2))) := by
  refine ⟨unmapCalls_dropMapper uo s.mappings, ?_, ?_⟩
  · intro tr ms hc
    have hno := collectMappings_no_unmap D ranges
    rw [hc] at hno
    constructor
    · simp [mapRanges, hc]
    · rw [mapRanges_trace D s ranges, hc]
      exact hno
  · intro tr1 ms1 tr2 ms2 h1 h2
    have hno1 := collectMappings_no_unmap D r1
    have hno2 := collectMappings_no_unmap D r2
    rw [h1] at hno1
    rw [h2] at hno2
    have hmain : unmapCalls (mapperLifecycleTrace D uo r1 r2) = ms2 := by
      simp only [mapperLifecycleTrace, mapRanges, h1, h2]
      rw [unmapCalls_append, unmapCalls_append]
      simp [hno1, hno2, dropMapper, unmapCalls_dropMapper]
    refine ⟨hmain, ?_⟩
    intro m _ hm2
    rw [hmain]
    exact hm2

/-- Witness for C10: a concrete lifecycle in which the driver maps everything,
the first call maps the range at 0 and the second call the range at 4096; only
the second mapping is ever unmapped. -/
theorem mapper_drop_and_replacement_witness :
    unmapCalls (mapperLifecycleTrace
      { mapOk := fun _ _ => true, virtOf := fun a _ => a + 0x10000 }
      (fun _ => true) [{ addr := 0, size := 4096 }] [{ addr := 4096, size := 4096 }]) =
      [{ phys_addr := 4096, size := 4096, virt_addr := 4096 + 0x10000 }] :=
  ((mapper_drop_and_replacement
      { mapOk := fun _ _ => true, virtOf := fun a _ => a + 0x10000 }
      (fun _ => true) { mappings := [] } []
      [{ addr := 0, size := 4096 }] [{ addr := 4096, size := 4096 }]).2.2
      [MapperEvent.mapCall 0 4096 true]
      [{ phys_addr := 0, size := 4096, virt_addr := 0x10000 }]
      [MapperEvent.mapCall 4096 4096 true]
      [{ phys_addr := 4096, size := 4096, virt_addr := 4096 + 0x10000 }]
      rfl rfl).1

/-- C6: Service::start() queries the state first and, when the service is
already Running, returns success without issuing any start control request;
and the StartServiceA handling of load_driver treats the
ERROR_SERVICE_ALREADY_RUNNING failure as success. -/
theorem service_start_idempotent (startResult : Except Unit Unit) :
    serviceStart (Except.ok SvcState.Running) startResult = (false, Except.ok ()) ∧
    loadDriverStartStep (some ErrorServiceAlreadyRunning) = Except.ok () :=
  ⟨rfl, rfl⟩
